import Mathlib

/-
Verification development for the stockfish_bot repository (src/bot.py).

The Python source is shallowly embedded: pure helpers become Lean
functions, Python float arithmetic is modelled over the rationals,
Python exceptions become Except / Option values, and the per-game
event-stream loop becomes a fold over a list of messages.  The chess
rules library (python-chess) is external to the repository, so the
board, the push_uci move application, and the side-to-move query are
abstracted as a Rules structure; a small executable instance demoRules
is used for concrete evaluations.
-/

namespace StockfishBot

/-! ## Configuration constants (src/bot.py lines 34-40) -/

/-- ACCEPT_RATED = False (src/bot.py line 34). -/
def ACCEPT_RATED : Bool := false

/-- ACCEPT_VARIANTS = {"standard"} (src/bot.py line 35). -/
def ACCEPT_VARIANTS : List String := ["standard"]

/-- MAX_GAME_BASETIME_SEC = 900 (src/bot.py line 36). -/
def MAX_GAME_BASETIME_SEC : Int := 900

/-- MAX_GAME_INCREMENT_SEC = 10 (src/bot.py line 37). -/
def MAX_GAME_INCREMENT_SEC : Int := 10

/-- DEFAULT_THINK_TIME_SEC = 0.2 (src/bot.py line 39). -/
def DEFAULT_THINK_TIME_SEC : ℚ := 1/5

/-- MOVE_OVERHEAD_SEC = 0.05 (src/bot.py line 40). -/
def MOVE_OVERHEAD_SEC : ℚ := 1/20

/-! ## Clock model: _to_ms (src/bot.py lines 329-344) -/

/-- Raw values a Lichess clock field may carry, discriminated exactly as
the isinstance checks of _to_ms do: Python ints, finite floats (modelled
as rationals), non-finite floats (for which the inner int() raises and
the except clause returns 0), numeric strings (modelled by the rational
that float(s) parses to), non-numeric strings (float(s) raises, caught),
None, datetime objects, and every other type. -/
inductive RawVal where
  | rint (n : Int)
  | rfloat (q : ℚ)
  | rfloatNonFinite
  | rstrNum (q : ℚ)
  | rstrBad
  | rnull
  | rdatetime
  | rother
deriving DecidableEq

/-- Truncation toward zero: the behaviour of Python int() on a finite
float.  Int.tdiv is T-division, which truncates toward zero. -/
def truncToward0 (q : ℚ) : Int := Int.tdiv q.num (q.den : Int)

/-- Embedding of _to_ms (src/bot.py lines 329-344): best-effort
conversion of a raw clock field to milliseconds.  None yields 0;
ints are returned via int(v); floats and numeric strings are truncated
toward zero; datetime objects and every other shape yield 0; every
failure path is caught by the surrounding try and yields 0.  The
function is total, mirroring the fact that _to_ms never raises. -/
def to_ms : RawVal → Int
  | .rnull => 0
  | .rint n => n
  | .rfloat q => truncToward0 q
  | .rfloatNonFinite => 0
  | .rstrNum q => truncToward0 q
  | .rstrBad => 0
  | .rdatetime => 0
  | .rother => 0

/-! ## Challenge acceptance: should_accept (src/bot.py lines 107-129) -/

/-- A challenge event as read by should_accept.  Fields are the
dictionary lookups the code performs.  tc_limit / tc_increment are none
when the int() conversion of the corresponding timeControl field raises
(the exception is caught by the surrounding try and the challenge is
declined, fail closed); an absent field is some 0, matching the
.get default of 0. -/
structure Challenge where
  challenger_id : Option String
  variant_key : Option String
  rated : Bool
  tc_type : Option String
  tc_limit : Option Int
  tc_increment : Option Int
deriving DecidableEq

/-- Embedding of the membership test
ch.get("variant", \x7b\x7d).get("key") not in ACCEPT_VARIANTS
(src/bot.py line 112): a missing key (None) is never in the set. -/
def variant_ok (v : Option String) : Bool :=
  match v with
  | some k => ACCEPT_VARIANTS.contains k
  | none => false

/-- Embedding of should_accept (src/bot.py lines 107-129), with the
account id my_id passed explicitly.  The checks appear in source
order; the final match models the two int() conversions, whose failure
raises and is caught by the surrounding try, returning False. -/
def should_accept (my_id : String) (ch : Challenge) : Bool :=
  if ch.challenger_id = some my_id then false
  else if variant_ok ch.variant_key = false then false
  else if ch.rated = true ∧ ACCEPT_RATED = false then false
  else if ch.tc_type ≠ some "clock" then false
  else
    match ch.tc_limit, ch.tc_increment with
    | some base, some inc =>
      if base > MAX_GAME_BASETIME_SEC ∨ inc > MAX_GAME_INCREMENT_SEC then false
      else true
    | _, _ => false

/-! ## Endgame heuristic and think-time policy (src/bot.py lines 346-389) -/

/-- Piece kinds of the rules library, as consumed by _is_endgame. -/
inductive Piece where
  | pawn
  | knight
  | bishop
  | rook
  | queen
  | king
deriving DecidableEq

/-- Embedding of _is_endgame (src/bot.py lines 346-352): the board is
abstracted to the multiset of pieces returned by board.piece_map()
(colour is irrelevant, both sides are counted together).  Endgame means
no queens on the board, or at most 4 rooks/bishops/knights/queens in
total. -/
def is_endgame (pieces : List Piece) : Bool :=
  let queens := (pieces.filter (fun p => p == Piece.queen)).length
  let non_pawn := (pieces.filter (fun p =>
    p == Piece.rook || p == Piece.bishop || p == Piece.knight || p == Piece.queen)).length
  if queens = 0 ∨ non_pawn ≤ 4 then true else false

/-- Embedding of _choose_think_time (src/bot.py lines 379-389).  Python
float arithmetic is modelled over the rationals.  The guard
not my_time_ms or my_time_ms <= 0 collapses to my_time_ms ≤ 0 on
integers, since 0 is the only falsy int. -/
def choose_think_time (pieces : List Piece) (my_time_ms : Int) : ℚ :=
  if my_time_ms ≤ 0 then DEFAULT_THINK_TIME_SEC
  else
    let secs : ℚ := (my_time_ms : ℚ) / 1000
    let base0 : ℚ := max (2/100) (min (1/2) (secs / 40))
    let base : ℚ := if is_endgame pieces then base0 * (7/10) else base0
    max (2/100) (base - MOVE_OVERHEAD_SEC)

/-- Modelled from the spec: clamp written lower-bound-then-upper-bound,
as used by the reference algorithm of spec section 4.3. -/
def clamp (x lo hi : ℚ) : ℚ := min hi (max lo x)

/-- Modelled from the spec: the think-time reference algorithm of spec
section 4.3, written from the spec text with the endgame classification
taken as an input flag: a fixed 0.2 s default when remaining time is
unknown (normalized to 0) or non-positive; otherwise
clamp(secs/40, 0.02, 0.5), multiplied by 0.7 in an endgame, reduced by
the 0.05 s move-overhead buffer and re-clamped to the 0.02 floor. -/
def specBudget (endgame : Bool) (my_time_ms : Int) : ℚ :=
  if my_time_ms ≤ 0 then 1/5
  else
    let secs : ℚ := (my_time_ms : ℚ) / 1000
    let base0 : ℚ := clamp (secs / 40) (2/100) (1/2)
    let base : ℚ := if endgame then base0 * (7/10) else base0
    max (2/100) (base - 1/20)

/-! ## Rules-library abstraction and _apply_moves (src/bot.py lines 292-299) -/

/-- Abstraction of the external rules library (python-chess), which is
not part of this repository: a position type, the initial position
chess.Board(), move application board.push_uci (some = the token is
accepted and applied, none = push_uci raises), and the side to move
board.turn (true = white). -/
structure Rules where
  Pos : Type
  init : Pos
  step : Pos → String → Option Pos
  turn : Pos → Bool

/-- Embedding of the token loop of _apply_moves (src/bot.py lines
295-299) on a tokenized move list, parametric in the rules library:
each token is pushed in turn; a token the library rejects is logged via
traceback.print_exc (modelled by the second component, the list of
rejected tokens in order) and skipped, and the remaining tokens are
still attempted from the current position.  Total: never raises. -/
def applyTokens (R : Rules) (b : R.Pos) : List String → R.Pos × List String
  | [] => (b, [])
  | t :: ts =>
    match R.step b t with
    | some b2 => applyTokens R b2 ts
    | none =>
      let r := applyTokens R b ts
      (r.1, t :: r.2)

/-- The moves field of a game message.  str is a string value, modelled
by its whitespace-split token list (the empty string splits to []);
nonStr is a truthy non-string value (for example an integer), on which
_apply_moves raises AttributeError at moves_str.split() — that
exception is not caught inside play_game. -/
inductive MovesVal where
  | str (toks : List String)
  | nonStr
deriving DecidableEq

/-- Embedding of a full _apply_moves call (src/bot.py lines 292-299):
ok carries the resulting position plus the logged illegal tokens; error
models the uncaught exception raised on a truthy non-string moves
value. -/
def applyMovesVal (R : Rules) (b : R.Pos) : MovesVal → Except Unit (R.Pos × List String)
  | .str toks => .ok (applyTokens R b toks)
  | .nonStr => .error ()

/-! ## Game session state machine: play_game (src/bot.py lines 192-299) -/

/-- Messages of the per-game state stream consumed by play_game.
gameFull carries the two player-slot ids and the embedded
state.moves; gameState carries the event's complete moves list;
chatLine is ignored.  The status-file writes and clock fields are glue
handled outside this model (the clocks are consumed inside the move
routine, modelled separately by maybeMakeMove). -/
inductive Msg where
  | gameFull (whiteId blackId : Option String) (moves : MovesVal)
  | gameState (moves : MovesVal)
  | chatLine
deriving DecidableEq

/-- Mutable state of one play_game invocation: the board and my_color
(none = side unknown). -/
structure SessState (R : Rules) where
  board : R.Pos
  myColor : Option Bool

/-- Record of one invocation of _maybe_make_move (an oracle query plus
possible move submission): the position handed to the engine and the
side the session believes it is playing. -/
structure MoveAttempt (R : Rules) where
  pos : R.Pos
  color : Bool

/-- Embedding of the move-attempt guard
if my_color is not None and board.turn == my_color (src/bot.py lines
252 and 279): the list of _maybe_make_move invocations the guard lets
through (empty or a singleton). -/
def attemptsIf (R : Rules) (mc : Option Bool) (b : R.Pos) : List (MoveAttempt R) :=
  match mc with
  | some c => if R.turn b = c then [⟨b, c⟩] else []
  | none => []

/-- Embedding of the processing of one stream message inside the
play_game loop (src/bot.py lines 202-284).  gameFull re-derives
my_color from the player slots (unchanged when neither matches) and
pushes the embedded move list onto the session's existing board;
gameState rebuilds the board from scratch from the event's complete
move list; chatLine does nothing.  error propagates the uncaught
exception raised by _apply_moves on a malformed moves value. -/
def processMsg (R : Rules) (my : String) (s : SessState R) :
    Msg → Except Unit (SessState R × List (MoveAttempt R))
  | .gameFull w b mv =>
    let mc := if w = some my then some true
              else if b = some my then some false
              else s.myColor
    match applyMovesVal R s.board mv with
    | .ok r => .ok (⟨r.1, mc⟩, attemptsIf R mc r.1)
    | .error e => .error e
  | .gameState mv =>
    match applyMovesVal R R.init mv with
    | .ok r => .ok (⟨r.1, s.myColor⟩, attemptsIf R s.myColor r.1)
    | .error e => .error e
  | .chatLine => .ok (s, [])

/-- Outcome of one play_game invocation: the stream ended (finished,
with the final session state) or an uncaught exception escaped the
loop (crashed). -/
inductive SessOutcome (R : Rules) where
  | finished (s : SessState R)
  | crashed

/-- The play_game message loop (src/bot.py lines 202-284): messages are
processed in order, accumulating the move attempts; there is no
try/except inside the loop, so the first message whose processing
raises aborts the loop and the remaining messages are never consumed. -/
def runSession (R : Rules) (my : String) (s : SessState R) :
    List Msg → List (MoveAttempt R) × SessOutcome R
  | [] => ([], .finished s)
  | m :: ms =>
    match processMsg R my s m with
    | .ok (s2, as) =>
      let r := runSession R my s2 ms
      (as ++ r.1, r.2)
    | .error _ => ([], .crashed)

/-- Initial session state of play_game (src/bot.py lines 193-194):
board = chess.Board(), my_color = None. -/
def sessInit (R : Rules) : SessState R := ⟨R.init, none⟩

/-- One full play_game invocation over the listed stream messages. -/
def playGame (R : Rules) (my : String) (msgs : List Msg) :
    List (MoveAttempt R) × SessOutcome R :=
  runSession R my (sessInit R) msgs

/-- Embedding of the gameStart dispatch in handle_event_stream
(src/bot.py lines 154-161): play_game is wrapped in try/except, so a
crashed session is caught and logged and the event loop goes on;
only the attempts made before the crash took effect. -/
def handleGameStart (R : Rules) (my : String) (msgs : List Msg) :
    List (MoveAttempt R) :=
  (playGame R my msgs).1

/-- A small executable rules instance used for concrete evaluations:
positions are the list of accepted tokens, a token is accepted exactly
when it has four characters (a stand-in for UCI parsing/legality: e2e4
style tokens are accepted, junk tokens raise), and the side to move
alternates starting from white, matching derivation of the turn from
the move-sequence parity. -/
def demoRules : Rules where
  Pos := List String
  init := []
  step := fun p t => if t.length = 4 then some (p ++ [t]) else none
  turn := fun p => p.length % 2 == 0

/-- Parse one board coordinate of a UCI token: file character a..h and
rank character 1..8, mapped to the square index file + 8 * rank. -/
def parseSquare (f r : Char) : Option Nat :=
  if 'a' ≤ f ∧ f ≤ 'h' ∧ '1' ≤ r ∧ r ≤ '8' then
    some ((f.toNat - 'a'.toNat) + 8 * (r.toNat - '1'.toNat))
  else none

/-- Parse a plain four-character UCI move token into its source and
destination squares; any other shape is rejected, as push_uci raises on
a token it cannot parse. -/
def parseUci (t : String) : Option (Nat × Nat) :=
  match t.toList with
  | [f1, r1, f2, r2] =>
    match parseSquare f1 r1, parseSquare f2 r2 with
    | some s1, some s2 => some (s1, s2)
    | _, _ => none
  | _ => none

/-- A board position carrying just what the legality checks below need:
which squares are occupied and by which colour (true = white), and the
side to move. -/
structure MiniPos where
  pieces : List (Nat × Bool)
  white_to_move : Bool
deriving DecidableEq

/-- The colour of the piece occupying a square, if any. -/
def occAt (ps : List (Nat × Bool)) (s : Nat) : Option Bool :=
  match ps.find? (fun e => e.1 == s) with
  | some e => some e.2
  | none => none

/-- Apply a move: the source square is vacated, anything on the
destination square is captured, and the side to move flips. -/
def movePiece (p : MiniPos) (src dst : Nat) (c : Bool) : MiniPos :=
  ⟨(dst, c) :: p.pieces.filter (fun e => !(e.1 == src) && !(e.1 == dst)),
   !p.white_to_move⟩

/-- Move application with position-dependent legality: the token must
parse, the source square must hold a piece of the side to move, and the
destination must not hold a piece of the same side.  This accepts a
superset of chess-legal moves, but its verdicts agree with push_uci at
every push of the traces it is used on below: e2e4 from the initial
position is legal, and the duplicated e2e4 afterwards is illegal (the
side to move is black and the source square e2 is empty), so push_uci
raises and _apply_moves skips it. -/
def miniStep (p : MiniPos) (t : String) : Option MiniPos :=
  match parseUci t with
  | none => none
  | some (src, dst) =>
    match occAt p.pieces src with
    | none => none
    | some c =>
      if c = p.white_to_move then
        match occAt p.pieces dst with
        | some c2 => if c2 = c then none else some (movePiece p src dst c)
        | none => some (movePiece p src dst c)
      else none

/-- The occupancy of the chess starting position chess.Board(): white
pieces on squares 0-15 (ranks 1-2), black pieces on squares 48-63
(ranks 7-8), white to move. -/
def chessStart : MiniPos :=
  ⟨((List.range 16).map (fun i => (i, true))) ++
     ((List.range 16).map (fun i => (48 + i, false))), true⟩

/-- A rules instance with position-dependent legality tracking
push_uci's verdicts on the concrete double-snapshot trace: positions
record occupancy and the side to move, starting from the chess starting
position. -/
def chessLikeRules : Rules where
  Pos := MiniPos
  init := chessStart
  step := miniStep
  turn := fun p => p.white_to_move

/-! ## Move routine and oracle lifecycle: _maybe_make_move (src/bot.py lines 354-377) -/

/-- Outcome of the engine.play call inside _maybe_make_move: a best
move was found; result.move was None (game already decided); the
engine process terminated abnormally (chess.engine.EngineTerminatedError);
or some other exception was raised. -/
inductive OracleResult where
  | found (m : String)
  | noMove
  | terminated
  | failed
deriving DecidableEq

/-- Embedding of _maybe_make_move (src/bot.py lines 354-377).
engineGen models the self.engine process handle as a generation
counter: restarting in place (self.engine = popen_uci(...)) yields the
next generation.  The oracle is a function from the computed think
budget to the call outcome.  The result is the engine handle after the
call and the move submitted to the platform, if any.  The function is
total: EngineTerminatedError triggers the restart, every other
exception is caught and logged, so the caller (the play_game loop)
always continues. -/
def maybeMakeMove (engineGen : Nat) (pieces : List Piece)
    (wtime btime : RawVal) (myColor : Bool)
    (oracle : ℚ → OracleResult) : Nat × Option String :=
  let myTime := if myColor then to_ms wtime else to_ms btime
  let think := choose_think_time pieces myTime
  match oracle think with
  | .found m => (engineGen, some m)
  | .noMove => (engineGen, none)
  | .terminated => (engineGen + 1, none)
  | .failed => (engineGen, none)

/-! ## Theorems -/

/-- Clamping below then above agrees with clamping above then below when
the bounds are ordered, specialised to the 0.02 / 0.5 bounds of the
think-time policy. -/
lemma max_min_swap (x : ℚ) :
    max (2/100) (min (1/2) x) = min (1/2) (max (2/100) x) := by
  rcases le_total x (2/100) with h | h <;> rcases le_total x (1/2) with h2 | h2 <;>
    simp [max_def, min_def] <;> split_ifs <;> linarith

/-- C1: the think-time budget computed by _choose_think_time equals the
reference algorithm of spec section 4.3 at every position and every
remaining time: default 0.2 s when the remaining time is unknown
(normalized to 0) or non-positive, otherwise clamp(secs/40, 0.02, 0.5),
times 0.7 when the position is classified endgame, minus the 0.05 s
overhead, re-clamped to the 0.02 floor. -/
theorem c1_think_time_matches_spec (pieces : List Piece) (t : Int) :
    choose_think_time pieces t = specBudget (is_endgame pieces) t := by
  cases hE : is_endgame pieces <;>
    simp only [choose_think_time, specBudget, clamp, DEFAULT_THINK_TIME_SEC,
      MOVE_OVERHEAD_SEC, hE, Bool.false_eq_true, if_false, if_true] <;>
    split_ifs with h <;>
    first
      | rfl
      | rw [max_min_swap]

/-- C2 counterexample: _to_ms does not return a non-negative integer on
every raw input; the Python int -5 is passed through unchanged, giving
a negative result. -/
theorem c2_counterexample_to_ms :
    to_ms (RawVal.rint (-5)) = -5 ∧ ¬(0 ≤ to_ms (RawVal.rint (-5))) := by
  exact ⟨rfl, by decide⟩

/-- C2 amended: _to_ms always returns an integer and never raises
(totality of the embedding); null, datetime, non-numeric strings,
non-finite floats and every unrecognized shape yield 0; and the result
is non-negative whenever the numeric input is non-negative (negative
numeric inputs are passed through, truncated toward zero). -/
theorem c2_amended_to_ms :
    (∀ v : RawVal,
      (match v with
       | .rint n => 0 ≤ n
       | .rfloat q => 0 ≤ q
       | .rstrNum q => 0 ≤ q
       | _ => True) → 0 ≤ to_ms v) ∧
    to_ms RawVal.rnull = 0 ∧ to_ms RawVal.rdatetime = 0 ∧
    to_ms RawVal.rother = 0 ∧ to_ms RawVal.rstrBad = 0 ∧
    to_ms RawVal.rfloatNonFinite = 0 := by
  refine ⟨?_, rfl, rfl, rfl, rfl, rfl⟩
  intro v hv
  cases v <;>
    simp only [to_ms, truncToward0] <;>
    first
      | exact le_refl 0
      | exact hv
      | exact Int.tdiv_nonneg (Rat.num_nonneg.mpr hv) (Int.ofNat_nonneg _)

/-- C2 witness: the amended theorem evaluated at the integer input 7. -/
theorem c2_witness_to_ms : 0 ≤ to_ms (RawVal.rint 7) :=
  c2_amended_to_ms.1 (RawVal.rint 7) (by decide)

/-- C3: should_accept accepts a challenge exactly when none of the
rejection conditions holds: it returns False whenever the challenger id
is the bot's own id, the variant is outside the allow-list, the
challenge is rated while rated play is disabled, the time control is
not of clock type, the base time exceeds the 900 s ceiling, the
increment exceeds the 10 s ceiling, or the evaluation raises (modelled
by an unparsable limit or increment field; fail closed) — and True for
every other challenge. -/
theorem c3_should_accept_iff (my_id : String) (ch : Challenge) :
    should_accept my_id ch = true ↔
      (ch.challenger_id ≠ some my_id ∧
       (∃ k, ch.variant_key = some k ∧ k ∈ ACCEPT_VARIANTS) ∧
       ¬(ch.rated = true ∧ ACCEPT_RATED = false) ∧
       ch.tc_type = some "clock" ∧
       (∃ base, ch.tc_limit = some base ∧ base ≤ MAX_GAME_BASETIME_SEC) ∧
       (∃ inc, ch.tc_increment = some inc ∧ inc ≤ MAX_GAME_INCREMENT_SEC)) := by
  obtain ⟨cid, vk, r, tct, tl, ti⟩ := ch
  simp only [should_accept, variant_ok]
  cases vk <;> cases tl <;> cases ti <;>
    split_ifs <;>
    simp_all [List.elem_iff, ACCEPT_RATED]

/-- C5 counterexample: at a positive remaining time of 1000 ms the
endgame budget is not strictly less than the non-endgame budget; both
sit at the 0.02 floor (the first board is classified endgame, the
second is not, yet the budgets are equal). -/
theorem c5_counterexample_endgame_budget :
    is_endgame [Piece.king, Piece.king] = true ∧
    is_endgame [Piece.queen, Piece.queen, Piece.rook, Piece.rook, Piece.rook] = false ∧
    (0 : Int) < 1000 ∧
    ¬(choose_think_time [Piece.king, Piece.king] 1000 <
      choose_think_time [Piece.queen, Piece.queen, Piece.rook, Piece.rook, Piece.rook] 1000) := by
  refine ⟨by decide, by decide, by decide, ?_⟩
  have e1 : choose_think_time [Piece.king, Piece.king] 1000 = 1/50 := by
    have h1 : is_endgame [Piece.king, Piece.king] = true := by decide
    simp only [choose_think_time, h1, if_true, MOVE_OVERHEAD_SEC]
    norm_num [max_def, min_def]
  have e2 : choose_think_time
      [Piece.queen, Piece.queen, Piece.rook, Piece.rook, Piece.rook] 1000 = 1/50 := by
    have h2 : is_endgame [Piece.queen, Piece.queen, Piece.rook, Piece.rook, Piece.rook]
        = false := by decide
    simp only [choose_think_time, h2, Bool.false_eq_true, if_false, MOVE_OVERHEAD_SEC]
    norm_num [max_def, min_def]
  rw [e1, e2]
  exact lt_irrefl _

/-- C5 amended: at every positive remaining time the budget for a
position classified endgame is at most the budget for a position not so
classified, and it is strictly less whenever the remaining time exceeds
2800 ms (the point where the non-endgame budget rises above the 0.02
floor); at or below 2800 ms both budgets sit at the floor. -/
theorem c5_amended_endgame_budget (b1 b2 : List Piece) (t : Int)
    (h1 : is_endgame b1 = true) (h2 : is_endgame b2 = false) (ht : 0 < t) :
    choose_think_time b1 t ≤ choose_think_time b2 t ∧
      (2800 < t → choose_think_time b1 t < choose_think_time b2 t) := by
  have hnt : ¬ t ≤ 0 := by omega
  simp only [choose_think_time, h1, h2, Bool.false_eq_true, if_false, if_true, if_neg hnt,
    MOVE_OVERHEAD_SEC]
  set b0 : ℚ := max (2/100) (min (1/2) ((t : ℚ) / 1000 / 40)) with hb0
  have hb0ge : (2/100 : ℚ) ≤ b0 := le_max_left _ _
  constructor
  · exact max_le_max le_rfl (by linarith)
  · intro h2800
    have hb7 : (7/100 : ℚ) < b0 := by
      have hcast : (2800 : ℚ) < (t : ℚ) := by exact_mod_cast h2800
      rcases le_total ((t : ℚ) / 1000 / 40) (1/2) with hc | hc
      · rw [hb0, min_eq_right hc, max_eq_right (by linarith)]
        linarith
      · rw [hb0, min_eq_left hc]
        norm_num
    rw [max_eq_right (le_of_lt (by linarith : (2/100 : ℚ) < b0 - 1/20))]
    exact max_lt (by linarith) (by linarith)

/-- C5 witness: the amended theorem evaluated at a king-only board, a
heavy board and 4000 ms remaining, where the strict inequality holds. -/
theorem c5_witness_endgame_budget :
    choose_think_time [Piece.king, Piece.king] 4000 <
      choose_think_time [Piece.queen, Piece.queen, Piece.rook, Piece.rook, Piece.rook] 4000 :=
  (c5_amended_endgame_budget _ _ 4000 (by decide) (by decide) (by decide)).2 (by decide)

/-- C6 counterexample: the budget is not monotonically non-decreasing
over all remaining times below the 20 s inflection point: at remaining
time 0 (unknown clock) the fixed 0.2 s default applies, which is larger
than the 0.02 s budget at remaining time 1000 ms, although 0 ≤ 1000 and
both are at most 20000 ms. -/
theorem c6_counterexample_budget_mono :
    (0 : Int) ≤ 1000 ∧ (1000 : Int) ≤ 20000 ∧
    ¬(choose_think_time [Piece.queen, Piece.queen, Piece.rook, Piece.rook, Piece.rook] 0 ≤
      choose_think_time [Piece.queen, Piece.queen, Piece.rook, Piece.rook, Piece.rook] 1000) := by
  refine ⟨by decide, by decide, ?_⟩
  have e0 : choose_think_time
      [Piece.queen, Piece.queen, Piece.rook, Piece.rook, Piece.rook] 0 = 1/5 := by
    norm_num [choose_think_time, DEFAULT_THINK_TIME_SEC]
  have e2 : choose_think_time
      [Piece.queen, Piece.queen, Piece.rook, Piece.rook, Piece.rook] 1000 = 1/50 := by
    have h2 : is_endgame [Piece.queen, Piece.queen, Piece.rook, Piece.rook, Piece.rook]
        = false := by decide
    simp only [choose_think_time, h2, Bool.false_eq_true, if_false, MOVE_OVERHEAD_SEC]
    norm_num [max_def, min_def]
  rw [e0, e2]
  norm_num

/-- C6 amended: the think budget is always at least 0.02 s, and it is
monotonically non-decreasing in remaining time over the positive
remaining times up to the 20 s inflection point; monotonicity fails
only across the non-positive (unknown-clock) default, which returns
0.2 s. -/
theorem c6_amended_budget_floor_mono :
    (∀ (pieces : List Piece) (t : Int), 2/100 ≤ choose_think_time pieces t) ∧
    (∀ (pieces : List Piece) (t1 t2 : Int), 0 < t1 → t1 ≤ t2 → t2 ≤ 20000 →
      choose_think_time pieces t1 ≤ choose_think_time pieces t2) := by
  constructor
  · intro pieces t
    simp only [choose_think_time, DEFAULT_THINK_TIME_SEC]
    split_ifs <;> norm_num
  · intro pieces t1 t2 h1 h12 h20
    have hn1 : ¬ t1 ≤ 0 := by omega
    have hn2 : ¬ t2 ≤ 0 := by omega
    simp only [choose_think_time, if_neg hn1, if_neg hn2]
    have hcast : (t1 : ℚ) ≤ (t2 : ℚ) := by exact_mod_cast h12
    have hb : max (2/100 : ℚ) (min (1/2) ((t1 : ℚ) / 1000 / 40)) ≤
        max (2/100) (min (1/2) ((t2 : ℚ) / 1000 / 40)) := by
      gcongr
    cases hE : is_endgame pieces <;>
      simp only [hE, Bool.false_eq_true, if_false, if_true]
    · exact max_le_max le_rfl (sub_le_sub_right hb _)
    · exact max_le_max le_rfl
        (sub_le_sub_right (mul_le_mul_of_nonneg_right hb (by norm_num)) _)

/-- C6 witness: the amended theorem evaluated at an empty board, at
remaining time 0 for the floor and at 1000 ms ≤ 2000 ms for
monotonicity. -/
theorem c6_witness_budget_mono :
    2/100 ≤ choose_think_time [] 0 ∧
    choose_think_time [] 1000 ≤ choose_think_time [] 2000 :=
  ⟨c6_amended_budget_floor_mono.1 [] 0,
   c6_amended_budget_floor_mono.2 [] 1000 2000 (by decide) (by decide) (by decide)⟩

/-- C4 counterexample: on the sequence e2e4, xx, e7e5 — whose middle
token the rules library rejects — the rebuilt position is not the
position reached by replaying the sequence up to the last legal move
before the illegal token: the tokens after the illegal one are applied
too, so the result holds both e2e4 and e7e5, while replaying only up to
the last legal move before the illegal token gives e2e4 alone. -/
theorem c4_counterexample_apply_moves :
    (applyTokens demoRules demoRules.init ["e2e4", "xx", "e7e5"]).1 = ["e2e4", "e7e5"] ∧
    (applyTokens demoRules demoRules.init ["e2e4"]).1 = ["e2e4"] ∧
    (applyTokens demoRules demoRules.init ["e2e4", "xx", "e7e5"]).2 = ["xx"] ∧
    (["e2e4", "e7e5"] : List String) ≠ ["e2e4"] := by
  refine ⟨rfl, rfl, rfl, by decide⟩

/-- C4 amended: rebuilding never raises (applyTokens is total); an
illegal token is reported in the log and skipped, and the rebuild
continues applying the remaining tokens from the position as of the
last legal move: the result on pre ++ illegal :: post is the result of
applying post from the position reached by pre, with the illegal token
inserted into the log between the two runs. -/
theorem c4_amended_apply_moves (R : Rules) (b : R.Pos) (pre : List String) (t : String)
    (post : List String)
    (h : R.step (applyTokens R b pre).1 t = none) :
    applyTokens R b (pre ++ t :: post) =
      ((applyTokens R (applyTokens R b pre).1 post).1,
       (applyTokens R b pre).2 ++ t :: (applyTokens R (applyTokens R b pre).1 post).2) := by
  induction pre generalizing b with
  | nil =>
    simp only [applyTokens] at h
    simp only [List.nil_append, applyTokens, h]
  | cons t0 pre ih =>
    rw [List.cons_append]
    cases hstep : R.step b t0 with
    | some b2 =>
      simp only [applyTokens, hstep] at h ⊢
      exact ih b2 h
    | none =>
      simp only [applyTokens, hstep] at h ⊢
      rw [ih b h]
      simp

/-- C4 witness: the amended theorem evaluated at the concrete sequence
e2e4, xx, e7e5 of the counterexample. -/
theorem c4_witness_apply_moves :
    applyTokens demoRules demoRules.init (["e2e4"] ++ "xx" :: ["e7e5"]) =
      ((applyTokens demoRules (applyTokens demoRules demoRules.init ["e2e4"]).1 ["e7e5"]).1,
       (applyTokens demoRules demoRules.init ["e2e4"]).2 ++ "xx" ::
         (applyTokens demoRules (applyTokens demoRules demoRules.init ["e2e4"]).1 ["e7e5"]).2) :=
  c4_amended_apply_moves demoRules demoRules.init ["e2e4"] "xx" ["e7e5"] rfl

/-- Any attempt the move-attempt guard lets through satisfies the
guard: the side to move at the attempted position is the recorded
colour, and the session colour was known and equal to it. -/
lemma attemptsIf_mem {R : Rules} {mc : Option Bool} {b : R.Pos} {a : MoveAttempt R}
    (h : a ∈ attemptsIf R mc b) : R.turn a.pos = a.color ∧ mc = some a.color := by
  cases mc with
  | none => simp [attemptsIf] at h
  | some c =>
    simp only [attemptsIf] at h
    split at h
    · rename_i hturn
      simp only [List.mem_singleton] at h
      subst h
      exact ⟨hturn, rfl⟩
    · simp at h

/-- Every attempt emitted while processing one message is emitted at a
position whose side to move is the recorded colour. -/
lemma processMsg_turn {R : Rules} {my : String} {s s2 : SessState R} {m : Msg}
    {as : List (MoveAttempt R)} (h : processMsg R my s m = .ok (s2, as)) :
    ∀ a ∈ as, R.turn a.pos = a.color := by
  intro a ha
  cases m with
  | gameFull w b mv =>
    simp only [processMsg] at h
    cases hmv : applyMovesVal R s.board mv with
    | ok r =>
      simp only [hmv, Except.ok.injEq, Prod.mk.injEq] at h
      obtain ⟨-, h2⟩ := h
      subst h2
      exact (attemptsIf_mem ha).1
    | error e => simp [hmv] at h
  | gameState mv =>
    simp only [processMsg] at h
    cases hmv : applyMovesVal R R.init mv with
    | ok r =>
      simp only [hmv, Except.ok.injEq, Prod.mk.injEq] at h
      obtain ⟨-, h2⟩ := h
      subst h2
      exact (attemptsIf_mem ha).1
    | error e => simp [hmv] at h
  | chatLine =>
    simp only [processMsg, Except.ok.injEq, Prod.mk.injEq] at h
    obtain ⟨-, h2⟩ := h
    subst h2
    simp at ha

/-- Every attempt emitted by the session loop is emitted at a position
whose side to move is the recorded colour. -/
lemma runSession_turn {R : Rules} {my : String} : ∀ (msgs : List Msg) (s : SessState R),
    ∀ a ∈ (runSession R my s msgs).1, R.turn a.pos = a.color := by
  intro msgs
  induction msgs with
  | nil =>
    intro s a ha
    simp [runSession] at ha
  | cons m ms ih =>
    intro s a ha
    simp only [runSession] at ha
    cases hm : processMsg R my s m with
    | ok p =>
      obtain ⟨s2, as⟩ := p
      simp only [hm, List.mem_append] at ha
      rcases ha with ha | ha
      · exact processMsg_turn hm a ha
      · exact ih s2 a ha
    | error e => simp [hm] at ha

/-- Processing one message while the own side is unknown, when the
message is not a full snapshot naming the own id in a player slot,
either raises or emits no attempt and leaves the side unknown. -/
lemma processMsg_unknown {R : Rules} {my : String} {s : SessState R} {m : Msg}
    (hs : s.myColor = none)
    (hno : ∀ w b mv, m = Msg.gameFull w b mv → w ≠ some my ∧ b ≠ some my) :
    processMsg R my s m = .error () ∨
    ∃ s2, processMsg R my s m = .ok (s2, []) ∧ s2.myColor = none := by
  cases m with
  | gameFull w b mv =>
    obtain ⟨hw, hb⟩ := hno w b mv rfl
    cases hmv : applyMovesVal R s.board mv with
    | error e => left; simp [processMsg, hmv]
    | ok r =>
      right
      refine ⟨⟨r.1, s.myColor⟩, ?_, hs⟩
      simp [processMsg, hmv, if_neg hw, if_neg hb, hs, attemptsIf]
  | gameState mv =>
    cases hmv : applyMovesVal R R.init mv with
    | error e => left; simp [processMsg, hmv]
    | ok r =>
      right
      refine ⟨⟨r.1, s.myColor⟩, ?_, hs⟩
      simp [processMsg, hmv, hs, attemptsIf]
  | chatLine =>
    right
    exact ⟨s, by simp [processMsg], hs⟩

/-- While the own side is unknown and no full snapshot of the stream
names the own id in a player slot, the session loop emits no attempt. -/
lemma runSession_unknown {R : Rules} {my : String} : ∀ (msgs : List Msg) (s : SessState R),
    s.myColor = none →
    (∀ w b mv, Msg.gameFull w b mv ∈ msgs → w ≠ some my ∧ b ≠ some my) →
    (runSession R my s msgs).1 = [] := by
  intro msgs
  induction msgs with
  | nil =>
    intro s hs hno
    simp [runSession]
  | cons m ms ih =>
    intro s hs hno
    have hm := @processMsg_unknown R my s m hs
      (fun w b mv he => hno w b mv (he ▸ List.mem_cons_self m ms))
    rcases hm with hm | ⟨s2, hm, hs2⟩
    · simp [runSession, hm]
    · simp only [runSession, hm, List.nil_append]
      exact ih s2 hs2 (fun w b mv he => hno w b mv (List.mem_cons_of_mem m he))

/-- C7: the session never invokes the move routine (_maybe_make_move,
which queries the oracle and submits the move) when the rebuilt
position's side to move is not the session's own side (every emitted
attempt carries a position whose side to move equals the attempt's
colour); it emits no attempt at all while its own side is unknown (no
player slot ever matched the own id); and conversely, on a full
snapshot whose white slot is the own id and whose move list is empty,
a move attempt at the initial position occurs immediately. -/
theorem c7_move_attempt_guard :
    (∀ (R : Rules) (my : String) (msgs : List Msg),
      ∀ a ∈ (playGame R my msgs).1, R.turn a.pos = a.color) ∧
    (∀ (R : Rules) (my : String) (msgs : List Msg),
      (∀ w b mv, Msg.gameFull w b mv ∈ msgs → w ≠ some my ∧ b ≠ some my) →
      (playGame R my msgs).1 = []) ∧
    (∀ (R : Rules) (my : String) (bId : Option String),
      R.turn R.init = true →
      (playGame R my [Msg.gameFull (some my) bId (MovesVal.str [])]).1 =
        [⟨R.init, true⟩]) := by
  refine ⟨?_, ?_, ?_⟩
  · intro R my msgs a ha
    exact runSession_turn msgs (sessInit R) a ha
  · intro R my msgs hno
    exact runSession_unknown msgs (sessInit R) rfl hno
  · intro R my bId hturn
    simp [playGame, runSession, processMsg, applyMovesVal, applyTokens, sessInit,
      attemptsIf, hturn]

/-- C7 witness: the theorem evaluated on the concrete rules instance —
the immediate attempt on a white full snapshot with an empty move list,
the absence of attempts when no player slot matches, and the guard on
the emitted attempt. -/
theorem c7_witness_move_attempt :
    (playGame demoRules "me" [Msg.gameFull (some "me") (some "opp") (MovesVal.str [])]).1 =
      [⟨([] : List String), true⟩] ∧
    (playGame demoRules "me" [Msg.gameState (MovesVal.str ["e2e4"])]).1 = [] ∧
    demoRules.turn (⟨([] : List String), true⟩ : MoveAttempt demoRules).pos =
      (⟨([] : List String), true⟩ : MoveAttempt demoRules).color :=
  ⟨c7_move_attempt_guard.2.2 demoRules "me" (some "opp") rfl,
   c7_move_attempt_guard.2.1 demoRules "me" [Msg.gameState (MovesVal.str ["e2e4"])]
     (by intro w b mv hmem; simp at hmem),
   c7_move_attempt_guard.1 demoRules "me"
     [Msg.gameFull (some "me") (some "opp") (MovesVal.str [])] ⟨[], true⟩
     (by exact List.mem_singleton.mpr rfl)⟩

/-- C8: when the oracle process terminates abnormally during a move
attempt (engine.play raises EngineTerminatedError), the move routine
restarts the oracle in place (the engine handle advances to a fresh
generation), submits no move for that ply (the attempt is abandoned,
not retried), and returns normally, so the crash does not terminate
the session. -/
theorem c8_oracle_crash_restart (g : Nat) (pieces : List Piece) (w b : RawVal)
    (c : Bool) (oracle : ℚ → OracleResult)
    (h : oracle (choose_think_time pieces (if c then to_ms w else to_ms b)) =
      OracleResult.terminated) :
    maybeMakeMove g pieces w b c oracle = (g + 1, none) := by
  simp only [maybeMakeMove, h]

/-- C8 witness: the theorem evaluated at an oracle that always reports
abnormal termination. -/
theorem c8_witness_oracle_crash :
    maybeMakeMove 0 [] RawVal.rnull RawVal.rnull true (fun _ => OracleResult.terminated) =
      (1, none) :=
  c8_oracle_crash_restart 0 [] RawVal.rnull RawVal.rnull true
    (fun _ => OracleResult.terminated) rfl

/-- C9 counterexample: a game stream whose second event raises (a
gameState whose moves field is a truthy non-string, on which
_apply_moves raises at moves_str.split) terminates the session: the
run stops with outcome crashed and the third event — which, processed
on its own from the state reached after the first event, would emit a
move attempt — is never consumed, refuting that the session continues
consuming subsequent events of the same game stream. -/
theorem c9_counterexample_session_crash :
    playGame demoRules "me"
      [Msg.gameFull (some "me") (some "opp") (MovesVal.str []),
       Msg.gameState MovesVal.nonStr,
       Msg.gameState (MovesVal.str [])] =
      ([⟨([] : List String), true⟩], SessOutcome.crashed) ∧
    processMsg demoRules "me" ⟨([] : List String), some true⟩
      (Msg.gameState (MovesVal.str [])) =
      .ok (⟨([] : List String), some true⟩, [⟨([] : List String), true⟩]) :=
  ⟨rfl, rfl⟩

/-- C9 amended: a game-state event whose processing raises an
unexpected error terminates the per-game session at that event — the
remaining events of the same game stream are never consumed — and the
error is caught and logged one level up, in the gameStart dispatcher of
handle_event_stream, so the bot's outer event loop continues: the
dispatcher returns normally with the attempts made before the crash. -/
theorem c9_amended_session_crash :
    (∀ (R : Rules) (my : String) (s : SessState R) (m : Msg) (ms : List Msg) (e : Unit),
      processMsg R my s m = .error e →
      runSession R my s (m :: ms) = ([], SessOutcome.crashed)) ∧
    (∀ (R : Rules) (my : String) (m : Msg) (ms : List Msg) (e : Unit),
      processMsg R my (sessInit R) m = .error e →
      handleGameStart R my (m :: ms) = []) := by
  constructor
  · intro R my s m ms e h
    simp [runSession, h]
  · intro R my m ms e h
    simp [handleGameStart, playGame, runSession, h]

/-- C9 witness: the amended theorem evaluated at a stream whose first
event carries a malformed moves field. -/
theorem c9_witness_session_crash :
    runSession demoRules "me" (sessInit demoRules) [Msg.gameState MovesVal.nonStr] =
      ([], SessOutcome.crashed) ∧
    handleGameStart demoRules "me" [Msg.gameState MovesVal.nonStr] = [] :=
  ⟨c9_amended_session_crash.1 demoRules "me" (sessInit demoRules)
     (Msg.gameState MovesVal.nonStr) [] () rfl,
   c9_amended_session_crash.2 demoRules "me" (Msg.gameState MovesVal.nonStr) [] () rfl⟩

/-- C10 counterexample: under a rules instance whose legality verdicts
agree with push_uci on this trace, two identical full snapshots each
carrying the move e2e4 leave the session board equal to replaying the
second snapshot's move list from the initial position, refuting the
claimed difference: the first e2e4 is legal and applied, the duplicated
e2e4 is illegal in the resulting position (black to move, source square
empty), push_uci raises and _apply_moves skips it, so the no-reset
gameFull path coincides with the fresh replay here. -/
theorem c10_counterexample_full_snapshot :
    (chessLikeRules.step chessLikeRules.init "e2e4").isSome = true ∧
    chessLikeRules.step (applyTokens chessLikeRules chessLikeRules.init ["e2e4"]).1 "e2e4"
      = none ∧
    (playGame chessLikeRules "me"
        [Msg.gameFull (some "me") (some "opp") (MovesVal.str ["e2e4"]),
         Msg.gameFull (some "me") (some "opp") (MovesVal.str ["e2e4"])]).2 =
      SessOutcome.finished
        ⟨(applyTokens chessLikeRules chessLikeRules.init ["e2e4"]).1, some true⟩ :=
  ⟨rfl, rfl, rfl⟩

/-- C10 amended: on an incremental gameState event the position is
rebuilt from a fresh initial board using only the event's complete move
list, so the resulting board is a function of that move list alone
(independent of the prior session state); on a gameFull event the
embedded move list is pushed onto the session's existing board without
resetting it: the board afterwards is the move list folded, with
illegal-token skipping, over the existing board rather than over the
initial board.  Whether a second full snapshot then differs from a
fresh replay depends on the rules library's verdicts; with push_uci's
legality an identical repeated snapshot is skipped move by move and the
boards coincide. -/
theorem c10_rebuild_semantics :
    (∀ (R : Rules) (my : String) (s : SessState R) (toks : List String),
      processMsg R my s (Msg.gameState (MovesVal.str toks)) =
        .ok (⟨(applyTokens R R.init toks).1, s.myColor⟩,
             attemptsIf R s.myColor (applyTokens R R.init toks).1)) ∧
    (∀ (R : Rules) (my : String) (s : SessState R) (w b : Option String) (toks : List String),
      processMsg R my s (Msg.gameFull w b (MovesVal.str toks)) =
        .ok (⟨(applyTokens R s.board toks).1,
              if w = some my then some true
              else if b = some my then some false else s.myColor⟩,
             attemptsIf R
               (if w = some my then some true
                else if b = some my then some false else s.myColor)
               (applyTokens R s.board toks).1)) := by
  refine ⟨?_, ?_⟩
  · intro R my s toks
    rfl
  · intro R my s w b toks
    rfl

end StockfishBot
